import Mathlib

/-!
Verification development for the Wikipedia page converter
(`wiki_converter.py`): a shallow embedding of its HTML rewriting pipeline
(title extraction, head URL resolution, element stripping, link
interception, image normalization, offline resource embedding, and final
page assembly), together with theorems checking the specification's
claims about it.

HTML documents are modelled as already-parsed `BeautifulSoup`-style trees
(`Node`); the network is modelled as an oracle `String → Option String`
giving the base64 payload `download_resource` returns, plus a second
oracle for the base64/UTF-8 decoding step used for stylesheets.
-/

namespace WikiConv

/-- Python whitespace characters (the default set stripped by `str.strip`
and used to split multi-valued attributes). -/
def isPySpace (c : Char) : Bool :=
  c = ' ' || c = '\t' || c = '\n' || c = '\r' || c = '\x0b' || c = '\x0c'

/-- `isPrefixL pat s`: `pat` is a prefix of `s`. -/
def isPrefixL : List Char → List Char → Bool
  | [], _ => true
  | _ :: _, [] => false
  | p :: ps, c :: cs => p = c && isPrefixL ps cs

/-- Python's substring test `pat in s`. -/
def containsL (pat : List Char) : List Char → Bool
  | [] => pat.isEmpty
  | c :: rest => isPrefixL pat (c :: rest) || containsL pat rest

/-- Python's `s.replace(pat, rep)`, fuel-bounded so that the recursion is
structural: replace every non-overlapping occurrence, scanning left to
right, resuming after each match.  Each step consumes at least one
character, so fuel starting at the string's length never runs out. -/
def replaceLAux (pat rep : List Char) : Nat → List Char → List Char
  | _, [] => []
  | 0, s => s
  | Nat.succ fuel, c :: rest =>
    if !pat.isEmpty && isPrefixL pat (c :: rest) then
      rep ++ replaceLAux pat rep fuel (rest.drop (pat.length - 1))
    else
      c :: replaceLAux pat rep fuel rest

/-- Python's `s.replace(pat, rep)` on character lists.  (All patterns the
converter uses are non-empty; an empty pattern is treated as matching
nowhere.) -/
def replaceL (pat rep s : List Char) : List Char := replaceLAux pat rep s.length s

/-- Python `s.startswith(p)`. -/
def pyStartsWith (s p : String) : Bool := isPrefixL p.data s.data

/-- Python `s.endswith(p)`. -/
def pyEndsWith (s p : String) : Bool := isPrefixL p.data.reverse s.data.reverse

/-- Python `p in s`. -/
def pyContains (s p : String) : Bool := containsL p.data s.data

/-- Python `s.replace(pat, rep)` on `String`. -/
def pyReplace (s pat rep : String) : String := String.mk (replaceL pat.data rep.data s.data)

/-- Python `s.lower()` (ASCII range; the converter only compares ASCII
marker substrings). -/
def pyLower (s : String) : String := String.mk (s.data.map Char.toLower)

/-- Python `s.strip()`. -/
def pyStrip (s : String) : String :=
  String.mk (((s.data.dropWhile isPySpace).reverse.dropWhile isPySpace).reverse)

/-- The fixed known origin used for all root-relative URLs. -/
def wikiOrigin : String := "https://en.wikipedia.org"

/-- Origin (`scheme://host`) and path of an `http(s)` URL. -/
def splitUrl (base : String) : String × String :=
  let b := base.data
  let (schemePart, rest) :=
    if isPrefixL "https://".data b then ("https://".data, b.drop 8)
    else if isPrefixL "http://".data b then ("http://".data, b.drop 7)
    else (([] : List Char), b)
  let host := rest.takeWhile (· ≠ '/')
  let path := rest.dropWhile (· ≠ '/')
  (String.mk (schemePart ++ host), String.mk path)

/-- The path's directory part, up to and including its last `/`
(`/` when the path has none). -/
def dirOf (path : String) : String :=
  if path.data.contains '/' then
    String.mk (path.data.reverse.dropWhile (· ≠ '/')).reverse
  else "/"

/-- Modelled from the spec: `urllib.parse.urljoin` (Python standard
library, outside `src/`), per §4.1: a URL that already has an `http(s)`
scheme is returned unchanged, a protocol-relative URL gets the base's
scheme, a root-relative URL is joined onto the base's origin, and any
other URL replaces the last segment of the base's path (RFC 3986
semantics restricted to the `http(s)` shapes the converter produces). -/
def urljoin (base rel : String) : String :=
  if rel = "" then base
  else if pyStartsWith rel "http://" || pyStartsWith rel "https://" then rel
  else if pyStartsWith rel "//" then
    (if pyStartsWith base "http://" then "http:" else "https:") ++ rel
  else
    let op := splitUrl base
    if pyStartsWith rel "/" then op.1 ++ rel
    else op.1 ++ dirOf op.2 ++ rel

/-- A parsed HTML node, as a `BeautifulSoup` tree: an element with tag
name, attributes (in insertion order) and children, or a text node.
Multi-valued attributes (`class`, `rel`) keep their source text; matching
splits them on whitespace as BeautifulSoup does. -/
inductive Node where
  | text : String → Node
  | elem : String → List (String × String) → List Node → Node
deriving Repr

/-- First value bound to key `k` (Python attribute dictionary lookup). -/
def getAttr (attrs : List (String × String)) (k : String) : Option String :=
  match attrs with
  | [] => none
  | (k', v) :: rest => if k' = k then some v else getAttr rest k

/-- `tag[k] = v`: overwrite the binding in place, or append a new one. -/
def setAttr (attrs : List (String × String)) (k v : String) : List (String × String) :=
  match attrs with
  | [] => [(k, v)]
  | (k', v') :: rest => if k' = k then (k, v) :: rest else (k', v') :: setAttr rest k v

/-- `del tag[k]`. -/
def delAttr (attrs : List (String × String)) (k : String) : List (String × String) :=
  match attrs with
  | [] => []
  | (k', v') :: rest => if k' = k then delAttr rest k else (k', v') :: delAttr rest k

/-- `k in tag.attrs`. -/
def hasAttr (attrs : List (String × String)) (k : String) : Bool :=
  (getAttr attrs k).isSome

/-- Split an attribute value on whitespace (BeautifulSoup's treatment of
multi-valued attributes such as `class` and `rel`). -/
def wsWordsAux : List Char → List Char → List String
  | [], acc => if acc.isEmpty then [] else [String.mk acc.reverse]
  | c :: rest, acc =>
    if isPySpace c then
      if acc.isEmpty then wsWordsAux rest []
      else String.mk acc.reverse :: wsWordsAux rest []
    else wsWordsAux rest (c :: acc)

/-- The whitespace-separated words of a string. -/
def wsWords (s : String) : List String := wsWordsAux s.data []

/-- BeautifulSoup's multi-valued attribute match: the sought word is one
of the whitespace-separated values of attribute `k`. -/
def hasWord (attrs : List (String × String)) (k w : String) : Bool :=
  match getAttr attrs k with
  | some v => (wsWords v).contains w
  | none => false

mutual

/-- All nodes of a subtree, in document (preorder) order. -/
def nodesOfNode : Node → List Node
  | .text s => [.text s]
  | .elem t a ch => .elem t a ch :: nodesOfForest ch

/-- All nodes of a forest, in document order. -/
def nodesOfForest : List Node → List Node
  | [] => []
  | n :: ns => nodesOfNode n ++ nodesOfForest ns

end

mutual

/-- `soup.find(...)` within one subtree: the first node (preorder,
depth-first) satisfying `p`. -/
def findNode (p : Node → Bool) : Node → Option Node
  | .text s => if p (.text s) then some (.text s) else none
  | .elem t a ch =>
    if p (.elem t a ch) then some (.elem t a ch) else findForest p ch

/-- `soup.find(...)` over a forest. -/
def findForest (p : Node → Bool) : List Node → Option Node
  | [] => none
  | n :: ns =>
    match findNode p n with
    | some r => some r
    | none => findForest p ns

end

mutual

/-- `tag.get_text()`: the concatenated text of all descendants. -/
def getTextNode : Node → String
  | .text s => s
  | .elem _ _ ch => getTextForest ch

/-- Concatenated text of a forest. -/
def getTextForest : List Node → String
  | [] => ""
  | n :: ns => getTextNode n ++ getTextForest ns

end

/-- HTML text escaping used when serializing text nodes. -/
def escText (s : String) : String :=
  pyReplace (pyReplace (pyReplace s "&" "&amp;") "<" "&lt;") ">" "&gt;"

/-- HTML escaping for attribute values. -/
def escAttr (s : String) : String := pyReplace (escText s) "\"" "&quot;"

/-- HTML void elements, serialized without a closing tag. -/
def voidTags : List String :=
  ["area", "base", "br", "col", "embed", "hr", "img", "input", "link",
   "meta", "param", "source", "track", "wbr"]

/-- Serialized attribute list, in stored order. -/
def renderAttrs : List (String × String) → String
  | [] => ""
  | (k, v) :: rest => " " ++ k ++ "=\"" ++ escAttr v ++ "\"" ++ renderAttrs rest

mutual

/-- `str(tag)`: serialize a node back to HTML markup. -/
def render : Node → String
  | .text s => escText s
  | .elem t a ch =>
    if voidTags.contains t then "<" ++ t ++ renderAttrs a ++ "/>"
    else "<" ++ t ++ renderAttrs a ++ ">" ++ renderForest ch ++ "</" ++ t ++ ">"

/-- Serialize a forest (`''.join(str(child) for child in ...)`). -/
def renderForest : List Node → String
  | [] => ""
  | n :: ns => render n ++ renderForest ns

end

/-- The effect of one `find_all` loop iteration on a matched element:
`decompose()` it, `replace_with` a new node, overwrite its attributes, or
leave it alone.  Non-matching elements use `skip`. -/
inductive EditAction where
  | drop : EditAction
  | swap : Node → EditAction
  | attrs : List (String × String) → EditAction
  | skip : EditAction

mutual

/-- Run one `find_all`-and-mutate loop over a subtree.  `f` receives each
element's tag, attributes and (original) children and says how the loop
body treats that element; children of kept elements are traversed too,
matching `find_all`'s full descendant scan, while replacement nodes are
not revisited (the match list was computed before mutation). -/
def editNode (f : String → List (String × String) → List Node → EditAction) :
    Node → List Node
  | .text s => [.text s]
  | .elem t a ch =>
    match f t a ch with
    | .drop => []
    | .swap n => [n]
    | .attrs a2 => [.elem t a2 (editList f ch)]
    | .skip => [.elem t a (editList f ch)]

/-- Run one `find_all`-and-mutate loop over a forest. -/
def editList (f : String → List (String × String) → List Node → EditAction) :
    List Node → List Node
  | [] => []
  | n :: ns => editNode f n ++ editList f ns

end

mutual

/-- Transform the first node (preorder) satisfying `p` in place; the
returned flag reports whether one was found. -/
def mapFirstNode (p : Node → Bool) (f : Node → Node) : Node → Node × Bool
  | .text s => if p (.text s) then (f (.text s), true) else (.text s, false)
  | .elem t a ch =>
    if p (.elem t a ch) then (f (.elem t a ch), true)
    else
      let r := mapFirstForest p f ch
      (.elem t a r.1, r.2)

/-- Transform the first matching node of a forest in place. -/
def mapFirstForest (p : Node → Bool) (f : Node → Node) :
    List Node → List Node × Bool
  | [] => ([], false)
  | n :: ns =>
    let r := mapFirstNode p f n
    if r.2 then (r.1 :: ns, true)
    else
      let rs := mapFirstForest p f ns
      (r.1 :: rs.1, rs.2)

end

/-- `tag.string`: the single `NavigableString` child, recursing through a
single element child, else `None`. -/
def childString : List Node → Option String
  | [.text s] => some s
  | [.elem _ _ ch] => childString ch
  | _ => none

/-! ## `process_wikipedia_html` (lines 112–250) -/

/-- Lines 134–137 (and identically 144–147, 155–158): make one head
resource URL absolute — root-relative URLs go to the fixed origin, URLs
without an `http` prefix are joined with the source URL, anything else is
kept. -/
def resolveHeadUrl (sourceUrl u : String) : String :=
  if pyStartsWith u "/" then wikiOrigin ++ u
  else if !(pyStartsWith u "http") then urljoin sourceUrl u
  else u

/-- Lines 130–138: `head.find_all('link', {'rel': 'stylesheet'})` — make
each stylesheet link's `href` absolute. -/
def styleLinkEdit (sourceUrl : String) (t : String) (a : List (String × String))
    (_ : List Node) : EditAction :=
  if t = "link" && hasWord a "rel" "stylesheet" then
    match getAttr a "href" with
    | some h => .attrs (setAttr a "href" (resolveHeadUrl sourceUrl h))
    | none => .skip
  else .skip

/-- Lines 141–148: `head.find_all('link')` — make every link's `href`
absolute. -/
def anyLinkEdit (sourceUrl : String) (t : String) (a : List (String × String))
    (_ : List Node) : EditAction :=
  if t = "link" then
    match getAttr a "href" with
    | some h => .attrs (setAttr a "href" (resolveHeadUrl sourceUrl h))
    | none => .skip
  else .skip

/-- Lines 151–159: `head.find_all('script')` — make every sourced head
script's `src` absolute (head scripts are never removed). -/
def headScriptEdit (sourceUrl : String) (t : String) (a : List (String × String))
    (_ : List Node) : EditAction :=
  if t = "script" then
    match getAttr a "src" with
    | some s => .attrs (setAttr a "src" (resolveHeadUrl sourceUrl s))
    | none => .skip
  else .skip

/-- Lines 129–159: the three sequential head passes (stylesheet links,
then all links, then scripts), applied to the head's descendants. -/
def processHead (sourceUrl : String) : Node → Node
  | .text s => .text s
  | .elem t a ch =>
    .elem t a
      (editList (headScriptEdit sourceUrl)
        (editList (anyLinkEdit sourceUrl)
          (editList (styleLinkEdit sourceUrl) ch)))

/-- Lines 169–170: remove every `noscript` element. -/
def noscriptEdit (t : String) (_ : List (String × String)) (_ : List Node) :
    EditAction :=
  if t = "noscript" then .drop else .skip

/-- Lines 173–187: body scripts — drop tracking/analytics scripts (by
`src` marker or inline text marker), make the rest's `src` absolute. -/
def bodyScriptEdit (sourceUrl : String) (t : String) (a : List (String × String))
    (ch : List Node) : EditAction :=
  if t = "script" then
    let src := (getAttr a "src").getD ""
    if pyContains (pyLower src) "analytics" || pyContains (pyLower src) "tracker"
        || pyContains (pyLower src) "google" then
      .drop
    else
      match childString ch with
      | some s =>
        if s ≠ "" && (pyContains (pyLower s) "analytics" || pyContains (pyLower s) "tracker") then
          .drop
        else if src ≠ "" then .attrs (setAttr a "src" (resolveHeadUrl sourceUrl src))
        else .skip
      | none =>
        if src ≠ "" then .attrs (setAttr a "src" (resolveHeadUrl sourceUrl src))
        else .skip
  else .skip

/-- Lines 190–191: remove `span.mw-editsection`. -/
def editSectionEdit (t : String) (a : List (String × String)) (_ : List Node) :
    EditAction :=
  if t = "span" && hasWord a "class" "mw-editsection" then .drop else .skip

/-- Lines 194–195: remove `div`s with any of the deny-listed classes. -/
def navboxEdit (t : String) (a : List (String × String)) (_ : List Node) :
    EditAction :=
  if t = "div" && (hasWord a "class" "navbox" || hasWord a "class" "printfooter"
      || hasWord a "class" "mw-authority-control" || hasWord a "class" "noprint") then
    .drop
  else .skip

/-- Lines 198–199: remove `div[role=navigation]`. -/
def navRoleEdit (t : String) (a : List (String × String)) (_ : List Node) :
    EditAction :=
  if t = "div" && getAttr a "role" = some "navigation" then .drop else .skip

/-- Lines 202–203: remove `span.mw-editsection-bracket`. -/
def bracketEdit (t : String) (a : List (String × String)) (_ : List Node) :
    EditAction :=
  if t = "span" && hasWord a "class" "mw-editsection-bracket" then .drop else .skip

/-- Lines 206–226: rewrite one anchor's attributes — keep fragment links,
turn `/wiki/` links and absolute/protocol-relative links into boundary
markers (removing `href`), and make the remaining relative links
absolute. -/
def rewriteAnchorAttrs (sourceUrl : String) (a : List (String × String)) :
    List (String × String) :=
  match getAttr a "href" with
  | none => a
  | some href =>
    if pyStartsWith href "#" then a
    else if pyStartsWith href "/wiki/" then
      let wikiUrl := wikiOrigin ++ href
      delAttr (setAttr (setAttr a "data-boundary-url" wikiUrl) "onclick"
        ("showBoundaryWarning(\x27" ++ wikiUrl ++ "\x27, \x27wikipedia\x27); return false;")) "href"
    else if pyStartsWith href "http://" || pyStartsWith href "https://"
        || pyStartsWith href "//" then
      let externalUrl := if pyStartsWith href "http" then href else "https:" ++ href
      delAttr (setAttr (setAttr a "data-boundary-url" externalUrl) "onclick"
        ("showBoundaryWarning(\x27" ++ externalUrl ++ "\x27, \x27external\x27); return false;")) "href"
    else if !(pyStartsWith href "http") then
      setAttr a "href" (urljoin sourceUrl href)
    else a

/-- Lines 206–226 as a pass over `body.find_all('a', href=True)`. -/
def anchorEdit (sourceUrl : String) (t : String) (a : List (String × String))
    (_ : List Node) : EditAction :=
  if t = "a" && hasAttr a "href" then .attrs (rewriteAnchorAttrs sourceUrl a)
  else .skip

/-- Lines 229–235: normalize image sources — protocol-relative gets
`https:`, non-`http` is joined with the source URL. -/
def imgEdit (sourceUrl : String) (t : String) (a : List (String × String))
    (_ : List Node) : EditAction :=
  if t = "img" then
    match getAttr a "src" with
    | some src =>
      if pyStartsWith src "//" then .attrs (setAttr a "src" ("https:" ++ src))
      else if !(pyStartsWith src "http") then
        .attrs (setAttr a "src" (urljoin sourceUrl src))
      else .skip
    | none => .skip
  else .skip

/-- Lines 168–235: the body passes, in source order. -/
def processBodyForest (sourceUrl : String) (ns : List Node) : List Node :=
  editList (imgEdit sourceUrl)
    (editList (anchorEdit sourceUrl)
      (editList bracketEdit
        (editList navRoleEdit
          (editList navboxEdit
            (editList editSectionEdit
              (editList (bodyScriptEdit sourceUrl)
                (editList noscriptEdit ns)))))))

/-- `h1` with class word `firstHeading`. -/
def isH1Class (n : Node) : Bool :=
  match n with
  | .elem t a _ => t = "h1" && hasWord a "class" "firstHeading"
  | _ => false

/-- `h1` with id `firstHeading`. -/
def isH1Id (n : Node) : Bool :=
  match n with
  | .elem t a _ => t = "h1" && getAttr a "id" = some "firstHeading"
  | _ => false

/-- Any `h1` element. -/
def isH1 (n : Node) : Bool :=
  match n with
  | .elem t _ _ => t = "h1"
  | _ => false

/-- Any heading element (`h1`..`h6`). -/
def isHeadingTag (n : Node) : Bool :=
  match n with
  | .elem t _ _ =>
    t = "h1" || t = "h2" || t = "h3" || t = "h4" || t = "h5" || t = "h6"
  | _ => false

/-- Lines 117–123: prioritized title lookup with literal fallback. -/
def extractTitle (doc : List Node) : String :=
  match findForest isH1Class doc with
  | some n => pyStrip (getTextNode n)
  | none =>
    match findForest isH1Id doc with
    | some n => pyStrip (getTextNode n)
    | none =>
      match findForest isH1 doc with
      | some n => pyStrip (getTextNode n)
      | none => "Wikipedia Article"

/-- A `head` element. -/
def isHeadTag (n : Node) : Bool :=
  match n with
  | .elem t _ _ => t = "head"
  | _ => false

/-- A `body` element. -/
def isBodyTag (n : Node) : Bool :=
  match n with
  | .elem t _ _ => t = "body"
  | _ => false

/-! ## `embed_offline_resources` (lines 28–110)

`download_resource` is modelled as an oracle `dl : String → Option String`
returning the base64 payload (`None` on any fetch failure, matching the
function's `except` branch).  The stylesheet pass additionally base64- and
UTF-8-decodes the payload inside a `try`; that decoding is a second
oracle `dec : String → Option String` (`None` models the caught decoding
exception). -/

/-- Lines 60–69: image media type inferred from the source's extension. -/
def imgMediaType (src : String) : String :=
  if pyEndsWith src ".jpg" || pyEndsWith src ".jpeg" then "image/jpeg"
  else if pyEndsWith src ".png" then "image/png"
  else if pyEndsWith src ".gif" then "image/gif"
  else if pyEndsWith src ".svg" then "image/svg+xml"
  else "image/jpeg"

/-- Lines 92–101: font media type inferred from the URL's extension. -/
def fontMediaType (u : String) : String :=
  if pyEndsWith u ".woff2" then "font/woff2"
  else if pyEndsWith u ".woff" then "font/woff"
  else if pyEndsWith u ".ttf" then "font/ttf"
  else if pyEndsWith u ".otf" then "font/otf"
  else "font/woff"

/-- Characters admitted by the regex character class `[^'")]`. -/
def fontRunChar (c : Char) : Bool := !(c = '\x27' || c = '"' || c = ')')

/-- The character class `[wot]`. -/
def isWot (c : Char) : Bool := c = 'w' || c = 'o' || c = 't'

/-- Whether a captured candidate fully matches the group pattern
`[^'")]+\.[wot]f[f2]?` of the font regex on line 79: the run must end in
a literal dot followed by a two- or three-character `[wot]f[f2]?`
extension, with at least one character before the dot. -/
def validFontGroup (run : List Char) : Bool :=
  match run.reverse with
  | 'f' :: x :: '.' :: _ :: _ => isWot x
  | y :: 'f' :: x :: '.' :: _ :: _ => (y = 'f' || y = '2') && isWot x
  | _ => false

/-- Match the regex `url\(['"]?([^'")]+\.[wot]f[f2]?)['"]?\)` (line 79) at
the head of `s`, returning the captured group and the remainder after the
match.  Because the group's characters exclude quotes and `)`, the group
necessarily extends to the maximal `[^'")]` run, and the run must be
terminated by `)` or by a quote followed by `)`. -/
def matchFontAt : List Char → Option (List Char × List Char)
  | 'u' :: 'r' :: 'l' :: '(' :: rest =>
    let rest2 :=
      if rest.head? = some '\x27' || rest.head? = some '"' then rest.tail else rest
    let run := rest2.takeWhile fontRunChar
    let after := rest2.dropWhile fontRunChar
    if !run.isEmpty && validFontGroup run then
      match after with
      | ')' :: tl => some (run, tl)
      | q :: ')' :: tl => if q = '\x27' || q = '"' then some (run, tl) else none
      | _ => none
    else none
  | _ => none

/-- `re.findall` scanning for the font regex: try each position left to
right, continuing after the end of each non-overlapping match.  (The fuel
argument bounds the scan; it starts above the string length, and every
step consumes at least one character, so it never runs out.) -/
def findFontUrlsAux : Nat → List Char → List (List Char)
  | 0, _ => []
  | _, [] => []
  | Nat.succ fuel, c :: rest =>
    match matchFontAt (c :: rest) with
    | some (g, tl) => g :: findFontUrlsAux fuel tl
    | none => findFontUrlsAux fuel rest

/-- Line 79: `re.findall(r'url\([\'"]?([^\'")]+\.[wot]f[f2]?)[\'"]?\)', css)`. -/
def findFontUrls (css : String) : List String :=
  (findFontUrlsAux (css.data.length + 1) css.data).map String.mk

/-- Lines 75–108 inner loop: for each URL the regex found, resolve it,
download it, and on success substitute the data URI for all three quoting
styles by literal text replacement.  (`if font_data:` makes an empty
payload falsy, hence skipped.) -/
def embedFontsCss (dl : String → Option String) (css : String) : String :=
  List.foldl
    (fun c fontUrl =>
      if pyStartsWith fontUrl "data:" then c
      else
        let fullUrl :=
          if pyStartsWith fontUrl "/" then wikiOrigin ++ fontUrl
          else if !(pyStartsWith fontUrl "http") then urljoin wikiOrigin fontUrl
          else fontUrl
        match dl fullUrl with
        | none => c
        | some fontData =>
          if fontData = "" then c
          else
            let dataUri := "data:" ++ fontMediaType fontUrl ++ ";base64," ++ fontData
            pyReplace
              (pyReplace
                (pyReplace c
                  ("url(\x27" ++ fontUrl ++ "\x27)") ("url(\x27" ++ dataUri ++ "\x27)"))
                ("url(\"" ++ fontUrl ++ "\")") ("url(\"" ++ dataUri ++ "\")"))
              ("url(" ++ fontUrl ++ ")") ("url(" ++ dataUri ++ ")"))
    css (findFontUrls css)

/-- Lines 36–49: replace each fetched stylesheet link with an inline
`style` element holding the decoded CSS; a failed fetch (or an empty
payload, falsy under `if css_data:`, or a failed decode inside the `try`)
leaves the link untouched. -/
def cssLinkEdit (dl dec : String → Option String) (t : String)
    (a : List (String × String)) (_ : List Node) : EditAction :=
  if t = "link" && hasWord a "rel" "stylesheet" then
    match getAttr a "href" with
    | some href =>
      match dl href with
      | some cssData =>
        if cssData = "" then .skip
        else
          match dec cssData with
          | some cssText => .swap (.elem "style" [] [.text cssText])
          | none => .skip
      | none => .skip
    | none => .skip
  else .skip

/-- Lines 53–71: rewrite each fetched image source to a data URI (an
empty payload is falsy and skipped). -/
def imgEmbedEdit (dl : String → Option String) (t : String)
    (a : List (String × String)) (_ : List Node) : EditAction :=
  if t = "img" then
    match getAttr a "src" with
    | some src =>
      match dl src with
      | some imgData =>
        if imgData = "" then .skip
        else .attrs (setAttr a "src" ("data:" ++ imgMediaType src ++ ";base64," ++ imgData))
      | none => .skip
    | none => .skip
  else .skip

/-- Lines 75–108: run the font substitution over each inline style block
with a (non-empty) string, writing the updated CSS back. -/
def styleFontEdit (dl : String → Option String) (t : String)
    (a : List (String × String)) (ch : List Node) : EditAction :=
  if t = "style" then
    match childString ch with
    | some css =>
      if css = "" then .skip
      else .swap (.elem t a [.text (embedFontsCss dl css)])
    | none => .skip
  else .skip

/-- Lines 28–110: `embed_offline_resources` — stylesheets in the head
forest, images in the body forest, then fonts inside the head's style
blocks (including the ones just inlined). -/
def embedOfflineResources (dl dec : String → Option String)
    (headF bodyF : List Node) : List Node × List Node :=
  let headF1 := editList (cssLinkEdit dl dec) headF
  let bodyF1 := editList (imgEmbedEdit dl) bodyF
  let headF2 := editList (styleFontEdit dl) headF1
  (headF2, bodyF1)

/-- The record returned by `process_wikipedia_html` (lines 245–250). -/
structure PageData where
  title : String
  head_content : String
  body_content : String
  offline : Bool
deriving DecidableEq, Repr

/-- Lines 112–250: `process_wikipedia_html` on an already-parsed document
forest.  Title extraction happens first; the head (if any) is processed
in place and serialized, or yields the empty fragment; the body passes
run inside the `body` element, or over the whole tree when there is none;
in offline mode the serialized fragments are re-parsed and embedded
(re-parsing a just-serialized tree is modelled as the identity). -/
def processWikipediaHtml (dl dec : String → Option String) (doc : List Node)
    (sourceUrl : String) (offline : Bool) : PageData :=
  let titleText := extractTitle doc
  let t1 := (mapFirstForest isHeadTag (processHead sourceUrl) doc).1
  let headContent :=
    match findForest isHeadTag t1 with
    | some h => render h
    | none => ""
  let bodyChildren :=
    match findForest isBodyTag t1 with
    | some (.elem _ _ ch) => processBodyForest sourceUrl ch
    | some n => processBodyForest sourceUrl [n]
    | none => processBodyForest sourceUrl t1
  if offline then
    let headF :=
      match findForest isHeadTag t1 with
      | some h => [h]
      | none => []
    let embedded := embedOfflineResources dl dec headF bodyChildren
    ⟨titleText, renderForest embedded.1, renderForest embedded.2, true⟩
  else
    ⟨titleText, headContent, renderForest bodyChildren, false⟩

/-! ## `generate_html` (lines 252–475) -/

/-- Lines 256–381: the fixed interception stylesheet (`boundary_css`),
verbatim from the source. -/
def boundaryCss : String :=
"    <style>\n    /* Boundary Modal */\n    .modal-overlay \x7b\n        display: none;\n        position: fixed;\n        top: 0;\n        left: 0;\n        width: 100%;\n        height: 100%;\n        background: rgba(0, 0, 0, 0.85);\n        backdrop-filter: blur(5px);\n        z-index: 9999;\n        align-items: center;\n        justify-content: center;\n    \x7d\n\n    .modal-overlay.active \x7b\n        display: flex;\n    \x7d\n\n    .boundary-modal \x7b\n        background: linear-gradient(135deg, #1a1a2e 0%, #16213e 100%);\n        border: 2px solid #00ff41;\n        border-radius: 3px;\n        padding: 30px;\n        max-width: 500px;\n        box-shadow: 0 0 40px rgba(0, 255, 65, 0.3), inset 0 0 20px rgba(0, 255, 65, 0.1);\n        color: #00ff41;\n        font-family: \x27Courier New\x27, monospace;\n        animation: glitch 0.3s ease-in-out;\n    \x7d\n\n    @keyframes glitch \x7b\n        0%, 100% \x7b transform: translate(0); \x7d\n        20% \x7b transform: translate(-2px, 2px); \x7d\n        40% \x7b transform: translate(-2px, -2px); \x7d\n        60% \x7b transform: translate(2px, 2px); \x7d\n        80% \x7b transform: translate(2px, -2px); \x7d\n    \x7d\n\n    .boundary-modal h2 \x7b\n        color: #00ff41;\n        font-size: 24px;\n        margin: 0 0 20px 0;\n        text-align: center;\n        border: none;\n        font-family: \x27Courier New\x27, monospace;\n        text-shadow: 0 0 10px rgba(0, 255, 65, 0.7);\n        letter-spacing: 2px;\n    \x7d\n\n    .boundary-modal p \x7b\n        color: #00ff41;\n        font-size: 14px;\n        line-height: 1.8;\n        margin-bottom: 20px;\n        text-align: left;\n    \x7d\n\n    .boundary-modal .warning \x7b\n        background: rgba(255, 0, 0, 0.1);\n        border-left: 3px solid #ff0040;\n        padding: 10px;\n        margin: 15px 0;\n        color: #ff0040;\n        font-size: 13px;\n    \x7d\n\n    .boundary-modal .link-display \x7b\n        background: rgba(0, 0, 0, 0.5);\n        border: 1px solid #00ff41;\n        padding: 10px;\n        margin: 15px 0;\n        word-break: break-all;\n        font-size: 12px;\n        color: #0ff;\n    \x7d\n\n    .modal-buttons \x7b\n        display: flex;\n        gap: 15px;\n        justify-content: center;\n        margin-top: 25px;\n    \x7d\n\n    .modal-btn \x7b\n        padding: 10px 25px;\n        border: 2px solid #00ff41;\n        background: transparent;\n        color: #00ff41;\n        cursor: pointer;\n        font-family: \x27Courier New\x27, monospace;\n        font-size: 14px;\n        font-weight: bold;\n        transition: all 0.3s;\n        text-transform: uppercase;\n        letter-spacing: 1px;\n    \x7d\n\n    .modal-btn:hover \x7b\n        background: #00ff41;\n        color: #1a1a2e;\n        box-shadow: 0 0 20px rgba(0, 255, 65, 0.5);\n    \x7d\n\n    .modal-btn.danger \x7b\n        border-color: #ff0040;\n        color: #ff0040;\n    \x7d\n\n    .modal-btn.danger:hover \x7b\n        background: #ff0040;\n        color: #fff;\n        box-shadow: 0 0 20px rgba(255, 0, 64, 0.5);\n    \x7d\n\n    .blink \x7b\n        animation: blink 1s infinite;\n    \x7d\n\n    @keyframes blink \x7b\n        0%, 49% \x7b opacity: 1; \x7d\n        50%, 100% \x7b opacity: 0; \x7d\n    \x7d\n    </style>\n"

/-- Lines 384–462: the fixed boundary modal markup plus the interception
script (`boundary_modal`), verbatim from the source. -/
def boundaryModal : String :=
"\n    <!-- Boundary Warning Modal -->\n    <div class=\"modal-overlay\" id=\"boundaryModal\">\n        <div class=\"boundary-modal\">\n            <h2>\u26a0 REALITY BOUNDARY DETECTED \u26a0</h2>\n            <p>You are attempting to exit this mirror and access <strong>another Wikipedia page</strong>.</p>\n            <div class=\"warning\">\n                <span class=\"blink\">\u25b6</span> WARNING: Crossing between wiki-spaces may cause temporal displacement.\n            </div>\n            <p>Target destination:</p>\n            <div class=\"link-display\" id=\"targetLink\"></div>\n            <p style=\"font-size: 12px; color: #0ff;\">This page contains references to other Wikipedia articles. Proceeding will navigate away from the current mirror.</p>\n            <div class=\"modal-buttons\">\n                <button class=\"modal-btn\" onclick=\"closeModal()\">STAY HERE</button>\n                <button class=\"modal-btn danger\" onclick=\"proceedToLink()\">TRAVERSE BOUNDARY</button>\n            </div>\n        </div>\n    </div>\n\n    <script>\n        let pendingUrl = null;\n\n        function showBoundaryWarning(url, type) \x7b\x7b\n            pendingUrl = url;\n\n            if (type === \x27wikipedia\x27) \x7b\x7b\n                document.querySelector(\x27.boundary-modal h2\x27).textContent = \x27\u26a0 REALITY BOUNDARY DETECTED \u26a0\x27;\n                document.querySelector(\x27.boundary-modal p:first-of-type\x27).textContent = \x27You are attempting to exit this mirror and access another Wikipedia page.\x27;\n            \x7d\x7d else if (type === \x27external\x27) \x7b\x7b\n                document.querySelector(\x27.boundary-modal h2\x27).textContent = \x27\u26a0 EXTERNAL LINK WARNING \u26a0\x27;\n                document.querySelector(\x27.boundary-modal p:first-of-type\x27).textContent = \x27You are attempting to access an external website outside this mirror.\x27;\n            \x7d\x7d\n\n            document.getElementById(\x27targetLink\x27).textContent = url;\n            document.getElementById(\x27boundaryModal\x27).classList.add(\x27active\x27);\n        \x7d\x7d\n\n        function closeModal() \x7b\x7b\n            document.getElementById(\x27boundaryModal\x27).classList.remove(\x27active\x27);\n            pendingUrl = null;\n        \x7d\x7d\n\n        function proceedToLink() \x7b\x7b\n            if (pendingUrl) \x7b\x7b\n                window.open(pendingUrl, \x27_blank\x27);\n                closeModal();\n            \x7d\x7d\n        \x7d\x7d\n\n        // Handle hash links\n        document.addEventListener(\x27click\x27, function(e) \x7b\x7b\n            const link = e.target.closest(\x27a[href^=\"#\"]\x27);\n            if (link) \x7b\x7b\n                e.preventDefault();\n                const target = link.getAttribute(\x27href\x27);\n                if (target && target !== \x27#\x27) \x7b\x7b\n                    const element = document.querySelector(target);\n                    if (element) \x7b\x7b\n                        element.scrollIntoView(\x7b\x7b behavior: \x27smooth\x27 \x7d\x7d);\n                    \x7d\x7d\n                \x7d\x7d\n            \x7d\x7d\n        \x7d\x7d);\n\n        // Close modal on escape key\n        document.addEventListener(\x27keydown\x27, function(e) \x7b\x7b\n            if (e.key === \x27Escape\x27) \x7b\x7b\n                closeModal();\n            \x7d\x7d\n        \x7d\x7d);\n\n        // Close modal on overlay click\n        document.getElementById(\x27boundaryModal\x27).addEventListener(\x27click\x27, function(e) \x7b\x7b\n            if (e.target === this) \x7b\x7b\n                closeModal();\n            \x7d\x7d\n        \x7d\x7d);\n    </script>\n"

/-- Lines 464–475: `generate_html` — inject the interception stylesheet
before the head fragment's `</head>` (a plain-text replacement), then
assemble the final document around the body fragment and the modal
markup with its script. -/
def generateHtml (data : PageData) : String :=
  let headWithCss := pyReplace data.head_content "</head>" (boundaryCss ++ "</head>")
  "<!DOCTYPE html>\n<html lang=\"en\">\n" ++ headWithCss ++ "\n<body>\n"
    ++ data.body_content ++ boundaryModal ++ "</body>\n</html>\n"

/-! ## Helper lemmas -/

theorem getAttr_setAttr_same (a : List (String × String)) (k v : String) :
    getAttr (setAttr a k v) k = some v := by
  induction a with
  | nil => simp [setAttr, getAttr]
  | cons p rest ih =>
    by_cases h : p.1 = k
    · simp [setAttr, getAttr, h]
    · simp [setAttr, getAttr, h, ih]

theorem getAttr_setAttr_other (a : List (String × String)) (k v k' : String)
    (hne : k' ≠ k) : getAttr (setAttr a k v) k' = getAttr a k' := by
  induction a with
  | nil => simp [setAttr, getAttr, Ne.symm hne]
  | cons p rest ih =>
    by_cases h : p.1 = k
    · simp [setAttr, getAttr, h, hne, Ne.symm hne]
    · by_cases h2 : p.1 = k'
      · simp [setAttr, getAttr, h, h2, hne]
      · simp [setAttr, getAttr, h, h2, ih]

theorem getAttr_delAttr_same (a : List (String × String)) (k : String) :
    getAttr (delAttr a k) k = none := by
  induction a with
  | nil => simp [delAttr, getAttr]
  | cons p rest ih =>
    by_cases h : p.1 = k
    · simp [delAttr, h, ih]
    · simp [delAttr, getAttr, h, ih]

theorem getAttr_delAttr_other (a : List (String × String)) (k k' : String)
    (hne : k' ≠ k) : getAttr (delAttr a k) k' = getAttr a k' := by
  induction a with
  | nil => simp [delAttr]
  | cons p rest ih =>
    by_cases h : p.1 = k
    · simp [delAttr, getAttr, h, Ne.symm hne, ih]
    · by_cases h2 : p.1 = k'
      · simp [delAttr, getAttr, h, h2, hne]
      · simp [delAttr, getAttr, h, h2, ih]

theorem isPrefixL_self_append (p v : List Char) : isPrefixL p (p ++ v) = true := by
  induction p with
  | nil => simp [isPrefixL]
  | cons c cs ih => simp [isPrefixL, ih]

theorem isPrefixL_head {c : Char} {p l : List Char}
    (h : isPrefixL (c :: p) l = true) :
    ∃ rest, l = c :: rest ∧ isPrefixL p rest = true := by
  cases l with
  | nil => simp [isPrefixL] at h
  | cons d rest =>
    simp only [isPrefixL, Bool.and_eq_true, decide_eq_true_eq] at h
    exact ⟨rest, by rw [h.1], h.2⟩

theorem isPrefixL_mismatch {c d : Char} {p q l : List Char}
    (h : isPrefixL (c :: p) l = true) (hne : d ≠ c) :
    isPrefixL (d :: q) l = false := by
  obtain ⟨rest, hl, -⟩ := isPrefixL_head h
  subst hl
  simp [isPrefixL, hne]

theorem containsL_of_isPrefixL {pat l : List Char} (h : isPrefixL pat l = true) :
    containsL pat l = true := by
  cases l with
  | nil =>
    cases pat with
    | nil => simp [containsL]
    | cons c cs => simp [isPrefixL] at h
  | cons c rest => simp [containsL, h]

theorem containsL_of_eq_append (pat x y l : List Char) (h : l = x ++ pat ++ y) :
    containsL pat l = true := by
  subst h
  induction x with
  | nil =>
    exact containsL_of_isPrefixL (isPrefixL_self_append pat y)
  | cons c cs ih =>
    show containsL pat (c :: (cs ++ pat ++ y)) = true
    rw [containsL, ih, Bool.or_true]

theorem containsL_replaceLAux (pat rep : List Char) (fuel : Nat) (s : List Char)
    (hne : pat ≠ []) (hfuel : s.length ≤ fuel) (h : containsL pat s = true) :
    containsL rep (replaceLAux pat rep fuel s) = true := by
  induction fuel generalizing s with
  | zero =>
    cases s with
    | nil =>
      have : pat = [] := by simpa [containsL] using h
      exact absurd this hne
    | cons c rest => simp at hfuel
  | succ fuel ih =>
    cases s with
    | nil =>
      have : pat = [] := by simpa [containsL] using h
      exact absurd this hne
    | cons c rest =>
      by_cases hc : (!pat.isEmpty && isPrefixL pat (c :: rest)) = true
      · rw [replaceLAux, if_pos hc]
        exact containsL_of_eq_append rep [] _ _ rfl
      · rw [replaceLAux, if_neg hc]
        rw [containsL] at h
        have hpre : isPrefixL pat (c :: rest) = false := by
          cases hp : isPrefixL pat (c :: rest)
          · rfl
          · exfalso
            apply hc
            simp [hp, List.isEmpty_eq_true, hne]
        rw [hpre] at h
        simp only [Bool.false_or] at h
        rw [containsL]
        have hlen : rest.length ≤ fuel := by
          simp only [List.length_cons] at hfuel
          omega
        simp [ih rest hlen h]

theorem containsL_replaceL (pat rep : List Char) (s : List Char)
    (hne : pat ≠ []) (h : containsL pat s = true) :
    containsL rep (replaceL pat rep s) = true :=
  containsL_replaceLAux pat rep s.length s hne (le_refl _) h

theorem nodesOfForest_append (xs ys : List Node) :
    nodesOfForest (xs ++ ys) = nodesOfForest xs ++ nodesOfForest ys := by
  induction xs with
  | nil => simp [nodesOfForest]
  | cons n ns ih => simp [nodesOfForest, ih]

/-- A pass whose loop body only mutates attributes (never `decompose`s or
`replace_with`s a matched element). -/
def keepsElems (f : String → List (String × String) → List Node → EditAction) : Prop :=
  ∀ t a ch, (∃ a2, f t a ch = .attrs a2) ∨ f t a ch = .skip

/-- The attributes an element carries after one pass. -/
def newAttrs (f : String → List (String × String) → List Node → EditAction)
    (t : String) (a : List (String × String)) (ch : List Node) :
    List (String × String) :=
  match f t a ch with
  | .attrs a2 => a2
  | _ => a

mutual

/-- An element surviving an attributes-only pass: it reappears in the
output with its attributes transformed by the loop body and its children
transformed by the same pass. -/
theorem mem_editNode_of_keeps
    (f : String → List (String × String) → List Node → EditAction)
    (hf : keepsElems f) (m : Node) (t : String) (a : List (String × String))
    (ch : List Node) (hmem : Node.elem t a ch ∈ nodesOfNode m) :
    Node.elem t (newAttrs f t a ch) (editList f ch) ∈
      nodesOfForest (editNode f m) := by
  cases m with
  | text s => simp [nodesOfNode] at hmem
  | elem t' a' ch' =>
    rw [nodesOfNode] at hmem
    rcases List.mem_cons.mp hmem with heq | hmem'
    · obtain ⟨rfl, rfl, rfl⟩ : t = t' ∧ a = a' ∧ ch = ch' := by
        injection heq with h1 h2 h3
        exact ⟨h1, h2, h3⟩
      rcases hf t a ch with ⟨a2, hfa⟩ | hfa <;>
        simp [editNode, hfa, newAttrs, nodesOfForest, nodesOfNode]
    · have ihm := mem_editList_of_keeps f hf ch' t a ch hmem'
      rcases hf t' a' ch' with ⟨a2, hfa⟩ | hfa <;>
        simp [editNode, hfa, nodesOfForest, nodesOfNode, ihm]

/-- Forest version of `mem_editNode_of_keeps`. -/
theorem mem_editList_of_keeps
    (f : String → List (String × String) → List Node → EditAction)
    (hf : keepsElems f) (ms : List Node) (t : String) (a : List (String × String))
    (ch : List Node) (hmem : Node.elem t a ch ∈ nodesOfForest ms) :
    Node.elem t (newAttrs f t a ch) (editList f ch) ∈
      nodesOfForest (editList f ms) := by
  cases ms with
  | nil => simp [nodesOfForest] at hmem
  | cons n ns =>
    rw [nodesOfForest] at hmem
    rw [editList, nodesOfForest_append]
    rcases List.mem_append.mp hmem with h | h
    · exact List.mem_append_left _ (mem_editNode_of_keeps f hf n t a ch h)
    · exact List.mem_append_right _ (mem_editList_of_keeps f hf ns t a ch h)

end

mutual

/-- `find` returns nothing when no node matches. -/
theorem findNode_eq_none (p : Node → Bool) (m : Node)
    (h : ∀ n ∈ nodesOfNode m, p n = false) : findNode p m = none := by
  cases m with
  | text s =>
    have hp := h (Node.text s) (by simp [nodesOfNode])
    simp [findNode, hp]
  | elem t a ch =>
    have hp := h _ (by rw [nodesOfNode]; exact List.mem_cons_self _ _)
    have hrest := findForest_eq_none p ch
      (fun n hn => h n (by rw [nodesOfNode]; exact List.mem_cons_of_mem _ hn))
    simp [findNode, hp, hrest]

/-- Forest version of `findNode_eq_none`. -/
theorem findForest_eq_none (p : Node → Bool) (ms : List Node)
    (h : ∀ n ∈ nodesOfForest ms, p n = false) : findForest p ms = none := by
  cases ms with
  | nil => simp [findForest]
  | cons n ns =>
    have h1 := findNode_eq_none p n
      (fun m hm => h m (by rw [nodesOfForest]; exact List.mem_append_left _ hm))
    have h2 := findForest_eq_none p ns
      (fun m hm => h m (by rw [nodesOfForest]; exact List.mem_append_right _ hm))
    simp [findForest, h1, h2]

end

mutual

/-- `mapFirstNode` is the identity when no node matches. -/
theorem mapFirstNode_id (p : Node → Bool) (f : Node → Node) (m : Node)
    (h : ∀ n ∈ nodesOfNode m, p n = false) : mapFirstNode p f m = (m, false) := by
  cases m with
  | text s =>
    have hp := h (Node.text s) (by simp [nodesOfNode])
    simp [mapFirstNode, hp]
  | elem t a ch =>
    have hp := h _ (by rw [nodesOfNode]; exact List.mem_cons_self _ _)
    have hrest := mapFirstForest_id p f ch
      (fun n hn => h n (by rw [nodesOfNode]; exact List.mem_cons_of_mem _ hn))
    simp [mapFirstNode, hp, hrest]

/-- Forest version of `mapFirstNode_id`. -/
theorem mapFirstForest_id (p : Node → Bool) (f : Node → Node) (ms : List Node)
    (h : ∀ n ∈ nodesOfForest ms, p n = false) : mapFirstForest p f ms = (ms, false) := by
  cases ms with
  | nil => simp [mapFirstForest]
  | cons n ns =>
    have h1 := mapFirstNode_id p f n
      (fun m hm => h m (by rw [nodesOfForest]; exact List.mem_append_left _ hm))
    have h2 := mapFirstForest_id p f ns
      (fun m hm => h m (by rw [nodesOfForest]; exact List.mem_append_right _ hm))
    simp [mapFirstForest, h1, h2]

end

/-- A node predicate depending only on the tag (not on attributes or
children). -/
def attrBlind (q : Node → Bool) : Prop :=
  ∀ t a a' ch ch', q (.elem t a ch) = q (.elem t a' ch')

mutual

/-- Attributes-only passes cannot introduce nodes satisfying a
tag-determined predicate. -/
theorem editNode_pred (f : String → List (String × String) → List Node → EditAction)
    (hf : keepsElems f) (q : Node → Bool) (hq : attrBlind q) (m : Node)
    (h : ∀ n ∈ nodesOfNode m, q n = false) :
    ∀ n ∈ nodesOfForest (editNode f m), q n = false := by
  cases m with
  | text s =>
    intro n hn
    rw [editNode] at hn
    simp only [nodesOfForest, nodesOfNode, List.append_nil] at hn
    rw [List.mem_singleton] at hn
    subst hn
    exact h _ (by simp [nodesOfNode])
  | elem t a ch =>
    have hself := h _ (by rw [nodesOfNode]; exact List.mem_cons_self _ _)
    have hch := editList_pred f hf q hq ch
      (fun n hn => h n (by rw [nodesOfNode]; exact List.mem_cons_of_mem _ hn))
    intro n hn
    rcases hf t a ch with ⟨a2, hfa⟩ | hfa <;>
    · rw [editNode, hfa] at hn
      simp only [nodesOfForest, nodesOfNode, List.append_nil] at hn
      rcases List.mem_cons.mp hn with rfl | hn'
      · rw [hq _ _ a _ ch]
        exact hself
      · exact hch n hn'

/-- Forest version of `editNode_pred`. -/
theorem editList_pred (f : String → List (String × String) → List Node → EditAction)
    (hf : keepsElems f) (q : Node → Bool) (hq : attrBlind q) (ms : List Node)
    (h : ∀ n ∈ nodesOfForest ms, q n = false) :
    ∀ n ∈ nodesOfForest (editList f ms), q n = false := by
  cases ms with
  | nil =>
    intro n hn
    simp [editList, nodesOfForest] at hn
  | cons m mss =>
    have h1 := editNode_pred f hf q hq m
      (fun n hn => h n (by rw [nodesOfForest]; exact List.mem_append_left _ hn))
    have h2 := editList_pred f hf q hq mss
      (fun n hn => h n (by rw [nodesOfForest]; exact List.mem_append_right _ hn))
    intro n hn
    rw [editList, nodesOfForest_append] at hn
    rcases List.mem_append.mp hn with hn' | hn'
    · exact h1 n hn'
    · exact h2 n hn'

end

mutual

/-- `mapFirstNode` cannot introduce nodes satisfying a tag-determined
predicate, provided the transformation itself cannot. -/
theorem mapFirstNode_pred (p : Node → Bool) (f : Node → Node) (q : Node → Bool)
    (hq : attrBlind q)
    (hmap : ∀ n, p n = true → (∀ m ∈ nodesOfNode n, q m = false) →
      ∀ m ∈ nodesOfNode (f n), q m = false)
    (m : Node) (h : ∀ n ∈ nodesOfNode m, q n = false) :
    ∀ n ∈ nodesOfNode (mapFirstNode p f m).1, q n = false := by
  cases m with
  | text s =>
    cases hp : p (.text s) with
    | true =>
      have := hmap _ hp h
      simpa [mapFirstNode, hp] using this
    | false =>
      simpa [mapFirstNode, hp] using h
  | elem t a ch =>
    cases hp : p (.elem t a ch) with
    | true =>
      have := hmap _ hp h
      simpa [mapFirstNode, hp] using this
    | false =>
      have hch := mapFirstForest_pred p f q hq hmap ch
        (fun n hn => h n (by rw [nodesOfNode]; exact List.mem_cons_of_mem _ hn))
      intro n hn
      simp only [mapFirstNode, hp, Bool.false_eq_true, if_false] at hn
      rw [nodesOfNode] at hn
      rcases List.mem_cons.mp hn with rfl | hn'
      · rw [hq _ _ a _ ch]
        exact h _ (by rw [nodesOfNode]; exact List.mem_cons_self _ _)
      · exact hch n hn'

/-- Forest version of `mapFirstNode_pred`. -/
theorem mapFirstForest_pred (p : Node → Bool) (f : Node → Node) (q : Node → Bool)
    (hq : attrBlind q)
    (hmap : ∀ n, p n = true → (∀ m ∈ nodesOfNode n, q m = false) →
      ∀ m ∈ nodesOfNode (f n), q m = false)
    (ms : List Node) (h : ∀ n ∈ nodesOfForest ms, q n = false) :
    ∀ n ∈ nodesOfForest (mapFirstForest p f ms).1, q n = false := by
  cases ms with
  | nil =>
    intro n hn
    simp [mapFirstForest, nodesOfForest] at hn
  | cons m mss =>
    have hn1 := mapFirstNode_pred p f q hq hmap m
      (fun n hn => h n (by rw [nodesOfForest]; exact List.mem_append_left _ hn))
    have hrest : ∀ n ∈ nodesOfForest mss, q n = false :=
      fun n hn => h n (by rw [nodesOfForest]; exact List.mem_append_right _ hn)
    have hn2 := mapFirstForest_pred p f q hq hmap mss hrest
    intro n hn
    rw [mapFirstForest] at hn
    by_cases hfound : (mapFirstNode p f m).2
    · simp only [hfound, if_true, nodesOfForest] at hn
      rcases List.mem_append.mp hn with hn' | hn'
      · exact hn1 n hn'
      · exact hrest n hn'
    · simp only [hfound, if_false, nodesOfForest] at hn
      rcases List.mem_append.mp hn with hn' | hn'
      · exact hn1 n hn'
      · exact hn2 n hn'

end

theorem isPrefixL_of_append {xs ys l : List Char}
    (h : isPrefixL (xs ++ ys) l = true) : isPrefixL xs l = true := by
  induction xs generalizing l with
  | nil => simp [isPrefixL]
  | cons c cs ih =>
    cases l with
    | nil => simp [isPrefixL] at h
    | cons d rest =>
      simp only [List.cons_append, isPrefixL, Bool.and_eq_true] at h ⊢
      exact ⟨h.1, ih h.2⟩

theorem isPrefixL_mismatch2 {c d e : Char} {p q l : List Char}
    (h : isPrefixL (c :: d :: p) l = true) (hne : e ≠ d) :
    isPrefixL (c :: e :: q) l = false := by
  obtain ⟨rest, hl, h2⟩ := isPrefixL_head h
  obtain ⟨rest2, hl2, h3⟩ := isPrefixL_head h2
  subst hl2
  subst hl
  simp [isPrefixL, hne]

theorem keeps_anchorEdit (u : String) : keepsElems (anchorEdit u) := by
  intro t a ch
  rw [anchorEdit]
  split
  · exact Or.inl ⟨_, rfl⟩
  · exact Or.inr rfl

theorem keeps_styleLinkEdit (u : String) : keepsElems (styleLinkEdit u) := by
  intro t a ch
  rw [styleLinkEdit]
  repeat' split
  · exact Or.inl ⟨_, rfl⟩
  · exact Or.inr rfl
  · exact Or.inr rfl

theorem keeps_anyLinkEdit (u : String) : keepsElems (anyLinkEdit u) := by
  intro t a ch
  rw [anyLinkEdit]
  repeat' split
  · exact Or.inl ⟨_, rfl⟩
  · exact Or.inr rfl
  · exact Or.inr rfl

theorem keeps_headScriptEdit (u : String) : keepsElems (headScriptEdit u) := by
  intro t a ch
  rw [headScriptEdit]
  repeat' split
  · exact Or.inl ⟨_, rfl⟩
  · exact Or.inr rfl
  · exact Or.inr rfl

theorem keeps_imgEdit (u : String) : keepsElems (imgEdit u) := by
  intro t a ch
  rw [imgEdit]
  repeat' split
  all_goals first
    | exact Or.inl ⟨_, rfl⟩
    | exact Or.inr rfl

theorem isPrefixL_false_head {d : Char} {q l : List Char} {c : Char}
    {rest : List Char} (hl : l = c :: rest) (hne : d ≠ c) :
    isPrefixL (d :: q) l = false := by
  subst hl
  simp [isPrefixL, hne]

theorem isPrefixL_false_head2 {d e : Char} {q l : List Char} {c c2 : Char}
    {rest : List Char} (hl : l = c :: c2 :: rest) (hfirst : d = c) (hne : e ≠ c2) :
    isPrefixL (d :: e :: q) l = false := by
  subst hl
  subst hfirst
  simp [isPrefixL, hne]

/-! ## The claims -/

/-- C1.  For every body anchor whose href begins with `/wiki/`, the
anchor-rewriting pass (lines 212–217) removes the `href` attribute and
attaches the boundary marker: `data-boundary-url` set to
`https://en.wikipedia.org` concatenated with the original href, and an
`onclick` handler carrying the category tag `wikipedia`. -/
theorem c1_wiki_anchor_boundary (u : String) (t : List Node)
    (a : List (String × String)) (ch : List Node) (href : String)
    (hmem : Node.elem "a" a ch ∈ nodesOfForest t)
    (hhref : getAttr a "href" = some href)
    (hwiki : pyStartsWith href "/wiki/" = true) :
    ∃ ch2, Node.elem "a" (rewriteAnchorAttrs u a) ch2 ∈
        nodesOfForest (editList (anchorEdit u) t) ∧
      getAttr (rewriteAnchorAttrs u a) "href" = none ∧
      getAttr (rewriteAnchorAttrs u a) "data-boundary-url" =
        some (wikiOrigin ++ href) ∧
      getAttr (rewriteAnchorAttrs u a) "onclick" =
        some ("showBoundaryWarning(\x27" ++ (wikiOrigin ++ href) ++
          "\x27, \x27wikipedia\x27); return false;") := by
  have hhas : hasAttr a "href" = true := by simp [hasAttr, hhref]
  have hmem2 := mem_editList_of_keeps _ (keeps_anchorEdit u) t "a" a ch hmem
  have hna : newAttrs (anchorEdit u) "a" a ch = rewriteAnchorAttrs u a := by
    simp [newAttrs, anchorEdit, hhas]
  rw [hna] at hmem2
  have h1 : isPrefixL ('/' :: 'w' :: "iki/".data) href.data = true := hwiki
  obtain ⟨r1, hr1, h2⟩ := isPrefixL_head h1
  obtain ⟨r2, hr2, h3⟩ := isPrefixL_head h2
  rw [hr2] at hr1
  have hnothash : pyStartsWith href "#" = false := by
    show isPrefixL ('#' :: []) href.data = false
    exact isPrefixL_false_head hr1 (by decide)
  have hra : rewriteAnchorAttrs u a =
      delAttr (setAttr (setAttr a "data-boundary-url" (wikiOrigin ++ href)) "onclick"
        ("showBoundaryWarning(\x27" ++ (wikiOrigin ++ href) ++
          "\x27, \x27wikipedia\x27); return false;")) "href" := by
    rw [rewriteAnchorAttrs, hhref]
    simp only [hnothash, hwiki, Bool.false_eq_true, if_false, if_true]
  refine ⟨editList (anchorEdit u) ch, hmem2, ?_, ?_, ?_⟩
  · rw [hra, getAttr_delAttr_same]
  · rw [hra, getAttr_delAttr_other _ _ _ (by decide),
      getAttr_setAttr_other _ _ _ _ (by decide), getAttr_setAttr_same]
  · rw [hra, getAttr_delAttr_other _ _ _ (by decide), getAttr_setAttr_same]

/-- C1 witness: a concrete anchor with href `/wiki/Foo`. -/
theorem c1_wiki_anchor_boundary_witness :
    ∃ ch2, Node.elem "a"
        (rewriteAnchorAttrs "https://en.wikipedia.org/wiki/Bar"
          [("href", "/wiki/Foo")]) ch2 ∈
      nodesOfForest (editList (anchorEdit "https://en.wikipedia.org/wiki/Bar")
        [Node.elem "a" [("href", "/wiki/Foo")] []]) ∧
      getAttr (rewriteAnchorAttrs "https://en.wikipedia.org/wiki/Bar"
        [("href", "/wiki/Foo")]) "href" = none ∧
      getAttr (rewriteAnchorAttrs "https://en.wikipedia.org/wiki/Bar"
        [("href", "/wiki/Foo")]) "data-boundary-url" =
        some (wikiOrigin ++ "/wiki/Foo") ∧
      getAttr (rewriteAnchorAttrs "https://en.wikipedia.org/wiki/Bar"
        [("href", "/wiki/Foo")]) "onclick" =
        some ("showBoundaryWarning(\x27" ++ (wikiOrigin ++ "/wiki/Foo") ++
          "\x27, \x27wikipedia\x27); return false;") :=
  c1_wiki_anchor_boundary "https://en.wikipedia.org/wiki/Bar"
    [Node.elem "a" [("href", "/wiki/Foo")] []] [("href", "/wiki/Foo")] []
    "/wiki/Foo" (by simp [nodesOfForest, nodesOfNode]) (by rfl) (by rfl)

/-- C2.  For every body anchor whose href is an absolute `http://` or
`https://` URL or is scheme-relative (`//`), the anchor-rewriting pass
(lines 218–223) removes the `href`, sets the boundary destination to the
href itself (when it starts with `http`) or to `https:` prepended to it
(scheme-relative), and tags the marker with category `external`. -/
theorem c2_external_anchor_boundary (u : String) (t : List Node)
    (a : List (String × String)) (ch : List Node) (href : String)
    (hmem : Node.elem "a" a ch ∈ nodesOfForest t)
    (hhref : getAttr a "href" = some href)
    (habs : pyStartsWith href "http://" = true ∨ pyStartsWith href "https://" = true ∨
      pyStartsWith href "//" = true) :
    ∃ ch2, Node.elem "a" (rewriteAnchorAttrs u a) ch2 ∈
        nodesOfForest (editList (anchorEdit u) t) ∧
      getAttr (rewriteAnchorAttrs u a) "href" = none ∧
      getAttr (rewriteAnchorAttrs u a) "data-boundary-url" =
        some (if pyStartsWith href "http" then href else "https:" ++ href) ∧
      getAttr (rewriteAnchorAttrs u a) "onclick" =
        some ("showBoundaryWarning(\x27" ++
          (if pyStartsWith href "http" then href else "https:" ++ href) ++
          "\x27, \x27external\x27); return false;") := by
  have hhas : hasAttr a "href" = true := by simp [hasAttr, hhref]
  have hmem2 := mem_editList_of_keeps _ (keeps_anchorEdit u) t "a" a ch hmem
  have hna : newAttrs (anchorEdit u) "a" a ch = rewriteAnchorAttrs u a := by
    simp [newAttrs, anchorEdit, hhas]
  rw [hna] at hmem2
  -- the leading branches are not taken, and the external branch is
  have hnothash : pyStartsWith href "#" = false := by
    show isPrefixL ('#' :: []) href.data = false
    rcases habs with h | h | h
    · obtain ⟨r1, hr1, -⟩ := isPrefixL_head (show isPrefixL ('h' :: "ttp://".data) href.data = true from h)
      exact isPrefixL_false_head hr1 (by decide)
    · obtain ⟨r1, hr1, -⟩ := isPrefixL_head (show isPrefixL ('h' :: "ttps://".data) href.data = true from h)
      exact isPrefixL_false_head hr1 (by decide)
    · obtain ⟨r1, hr1, -⟩ := isPrefixL_head (show isPrefixL ('/' :: "/".data) href.data = true from h)
      exact isPrefixL_false_head hr1 (by decide)
  have hnotwiki : pyStartsWith href "/wiki/" = false := by
    show isPrefixL ('/' :: 'w' :: "iki/".data) href.data = false
    rcases habs with h | h | h
    · obtain ⟨r1, hr1, -⟩ := isPrefixL_head (show isPrefixL ('h' :: "ttp://".data) href.data = true from h)
      exact isPrefixL_false_head hr1 (by decide)
    · obtain ⟨r1, hr1, -⟩ := isPrefixL_head (show isPrefixL ('h' :: "ttps://".data) href.data = true from h)
      exact isPrefixL_false_head hr1 (by decide)
    · obtain ⟨r1, hr1, h2⟩ := isPrefixL_head (show isPrefixL ('/' :: '/' :: ([] : List Char)) href.data = true from h)
      obtain ⟨r2, hr2, -⟩ := isPrefixL_head h2
      rw [hr2] at hr1
      exact isPrefixL_false_head2 hr1 rfl (by decide)
  have hcond : (pyStartsWith href "http://" || pyStartsWith href "https://" ||
      pyStartsWith href "//") = true := by
    rcases habs with h | h | h <;> simp [h]
  have hra : rewriteAnchorAttrs u a =
      delAttr (setAttr (setAttr a "data-boundary-url"
        (if pyStartsWith href "http" then href else "https:" ++ href)) "onclick"
        ("showBoundaryWarning(\x27" ++
          (if pyStartsWith href "http" then href else "https:" ++ href) ++
          "\x27, \x27external\x27); return false;")) "href" := by
    rw [rewriteAnchorAttrs, hhref]
    simp only [hnothash, hnotwiki, Bool.false_eq_true, if_false]
    rw [if_pos hcond]
  refine ⟨editList (anchorEdit u) ch, hmem2, ?_, ?_, ?_⟩
  · rw [hra, getAttr_delAttr_same]
  · rw [hra, getAttr_delAttr_other _ _ _ (by decide),
      getAttr_setAttr_other _ _ _ _ (by decide), getAttr_setAttr_same]
  · rw [hra, getAttr_delAttr_other _ _ _ (by decide), getAttr_setAttr_same]

/-- C2 witness: a concrete scheme-relative anchor `//example.com/x`. -/
theorem c2_external_anchor_boundary_witness :
    ∃ ch2, Node.elem "a"
        (rewriteAnchorAttrs "https://en.wikipedia.org/wiki/Bar"
          [("href", "//example.com/x")]) ch2 ∈
      nodesOfForest (editList (anchorEdit "https://en.wikipedia.org/wiki/Bar")
        [Node.elem "a" [("href", "//example.com/x")] []]) ∧
      getAttr (rewriteAnchorAttrs "https://en.wikipedia.org/wiki/Bar"
        [("href", "//example.com/x")]) "href" = none ∧
      getAttr (rewriteAnchorAttrs "https://en.wikipedia.org/wiki/Bar"
        [("href", "//example.com/x")]) "data-boundary-url" =
        some (if pyStartsWith "//example.com/x" "http" then "//example.com/x"
          else "https:" ++ "//example.com/x") ∧
      getAttr (rewriteAnchorAttrs "https://en.wikipedia.org/wiki/Bar"
        [("href", "//example.com/x")]) "onclick" =
        some ("showBoundaryWarning(\x27" ++
          (if pyStartsWith "//example.com/x" "http" then "//example.com/x"
            else "https:" ++ "//example.com/x") ++
          "\x27, \x27external\x27); return false;") :=
  c2_external_anchor_boundary "https://en.wikipedia.org/wiki/Bar"
    [Node.elem "a" [("href", "//example.com/x")] []] [("href", "//example.com/x")]
    [] "//example.com/x" (by simp [nodesOfForest, nodesOfNode]) (by rfl)
    (Or.inr (Or.inr (by rfl)))

/-- C9.  A body anchor whose href begins with the characters `http` but
is neither an absolute `http://`/`https://` URL nor scheme-relative
(e.g. `httpfoo.html`) falls through every branch of lines 206–226: its
attributes are left completely unchanged — the href is neither removed,
nor boundary-marked, nor resolved against the base URL. -/
theorem c9_http_prefixed_relative_untouched (u : String) (t : List Node)
    (a : List (String × String)) (ch : List Node) (href : String)
    (hmem : Node.elem "a" a ch ∈ nodesOfForest t)
    (hhref : getAttr a "href" = some href)
    (hhttp : pyStartsWith href "http" = true)
    (hn1 : pyStartsWith href "http://" = false)
    (hn2 : pyStartsWith href "https://" = false) :
    rewriteAnchorAttrs u a = a ∧
    Node.elem "a" a (editList (anchorEdit u) ch) ∈
      nodesOfForest (editList (anchorEdit u) t) := by
  obtain ⟨r1, hr1, -⟩ := isPrefixL_head
    (show isPrefixL ('h' :: "ttp".data) href.data = true from hhttp)
  have hnothash : pyStartsWith href "#" = false := by
    show isPrefixL ('#' :: []) href.data = false
    exact isPrefixL_false_head hr1 (by decide)
  have hnotwiki : pyStartsWith href "/wiki/" = false := by
    show isPrefixL ('/' :: 'w' :: "iki/".data) href.data = false
    exact isPrefixL_false_head hr1 (by decide)
  have hnotrel : pyStartsWith href "//" = false := by
    show isPrefixL ('/' :: '/' :: ([] : List Char)) href.data = false
    exact isPrefixL_false_head hr1 (by decide)
  have hra : rewriteAnchorAttrs u a = a := by
    rw [rewriteAnchorAttrs, hhref]
    simp only [hnothash, hnotwiki, hn1, hn2, hnotrel, hhttp, Bool.false_eq_true,
      Bool.or_self, Bool.or_false, Bool.false_or, if_false, Bool.not_true]
  have hhas : hasAttr a "href" = true := by simp [hasAttr, hhref]
  have hmem2 := mem_editList_of_keeps _ (keeps_anchorEdit u) t "a" a ch hmem
  have hna : newAttrs (anchorEdit u) "a" a ch = rewriteAnchorAttrs u a := by
    simp [newAttrs, anchorEdit, hhas]
  rw [hna, hra] at hmem2
  exact ⟨hra, hmem2⟩

/-- C9 witness: the anchor `href="httpfoo.html"` is untouched. -/
theorem c9_http_prefixed_relative_untouched_witness :
    rewriteAnchorAttrs "https://en.wikipedia.org/wiki/Bar"
      [("href", "httpfoo.html")] = [("href", "httpfoo.html")] ∧
    Node.elem "a" [("href", "httpfoo.html")]
        (editList (anchorEdit "https://en.wikipedia.org/wiki/Bar") []) ∈
      nodesOfForest (editList (anchorEdit "https://en.wikipedia.org/wiki/Bar")
        [Node.elem "a" [("href", "httpfoo.html")] []]) :=
  c9_http_prefixed_relative_untouched "https://en.wikipedia.org/wiki/Bar"
    [Node.elem "a" [("href", "httpfoo.html")] []] [("href", "httpfoo.html")] []
    "httpfoo.html" (by simp [nodesOfForest, nodesOfNode]) (by rfl) (by rfl)
    (by rfl) (by rfl)

theorem newAttrs_styleLinkEdit_pos (u : String) (a : List (String × String))
    (ch : List Node) {v : String} (hs : hasWord a "rel" "stylesheet" = true)
    (h : getAttr a "href" = some v) :
    newAttrs (styleLinkEdit u) "link" a ch = setAttr a "href" (resolveHeadUrl u v) := by
  simp [newAttrs, styleLinkEdit, hs, h]

theorem newAttrs_styleLinkEdit_neg (u : String) (a : List (String × String))
    (ch : List Node) (hs : hasWord a "rel" "stylesheet" = false) :
    newAttrs (styleLinkEdit u) "link" a ch = a := by
  simp [newAttrs, styleLinkEdit, hs]

theorem newAttrs_anyLinkEdit (u : String) (a : List (String × String))
    (ch : List Node) (v : String) (h : getAttr a "href" = some v) :
    newAttrs (anyLinkEdit u) "link" a ch = setAttr a "href" (resolveHeadUrl u v) := by
  simp [newAttrs, anyLinkEdit, h]

theorem newAttrs_headScriptEdit_link (u : String) (a : List (String × String))
    (ch : List Node) :
    newAttrs (headScriptEdit u) "link" a ch = a := by
  simp [newAttrs, headScriptEdit]

/-- C4 counterexample: a head stylesheet link with href `//example.com/x`
is overwritten to `https://en.wikipedia.org//example.com/x` (the
`startswith('/')` branch fires first), which differs from the claimed
`https:` + href. -/
theorem c4_protocol_relative_head_link_counterexample :
    processHead "https://en.wikipedia.org"
      (Node.elem "head" []
        [Node.elem "link" [("rel", "stylesheet"), ("href", "//example.com/x")] []]) =
      Node.elem "head" []
        [Node.elem "link" [("rel", "stylesheet"),
          ("href", "https://en.wikipedia.org//example.com/x")] []] ∧
    ("https://en.wikipedia.org//example.com/x" : String) ≠
      "https:" ++ "//example.com/x" := by
  constructor
  · rfl
  · decide

/-- C4 amended.  For every link element in the head whose href starts
with `//`, the head passes (lines 130–148) overwrite the href with the
fixed origin `https://en.wikipedia.org` prepended (the `startswith('/')`
branch captures scheme-relative hrefs), not with `https:` prepended. -/
theorem c4_protocol_relative_head_link_amended (u : String)
    (ha : List (String × String)) (hch : List Node)
    (a : List (String × String)) (ch : List Node) (href : String)
    (hmem : Node.elem "link" a ch ∈ nodesOfForest hch)
    (hhref : getAttr a "href" = some href)
    (hrel : pyStartsWith href "//" = true) :
    ∃ a2 ch2, Node.elem "link" a2 ch2 ∈
        nodesOfNode (processHead u (Node.elem "head" ha hch)) ∧
      getAttr a2 "href" = some (wikiOrigin ++ href) := by
  have hslash : pyStartsWith href "/" = true := by
    have h' : isPrefixL ("/".data ++ "/".data) href.data = true := hrel
    exact isPrefixL_of_append h'
  have hres : resolveHeadUrl u href = wikiOrigin ++ href := by
    rw [resolveHeadUrl, if_pos hslash]
  -- facts about the already-resolved URL
  have hWdata : (wikiOrigin ++ href).data =
      'h' :: ("ttps://en.wikipedia.org".data ++ href.data) := by
    rw [String.data_append]
    rfl
  have hWslash : pyStartsWith (wikiOrigin ++ href) "/" = false := by
    show isPrefixL ('/' :: []) (wikiOrigin ++ href).data = false
    exact isPrefixL_false_head hWdata (by decide)
  have hWhttp : pyStartsWith (wikiOrigin ++ href) "http" = true := by
    show isPrefixL "http".data (wikiOrigin ++ href).data = true
    rw [String.data_append]
    show isPrefixL "http".data
      (("http".data ++ "s://en.wikipedia.org".data) ++ href.data) = true
    rw [List.append_assoc]
    exact isPrefixL_self_append _ _
  have hresW : resolveHeadUrl u (wikiOrigin ++ href) = wikiOrigin ++ href := by
    rw [resolveHeadUrl, if_neg (by simp [hWslash]), hWhttp]
    simp
  -- pass 1: stylesheet links
  have hm1 := mem_editList_of_keeps _ (keeps_styleLinkEdit u) hch "link" a ch hmem
  have ha1href : getAttr (newAttrs (styleLinkEdit u) "link" a ch) "href" =
      some (wikiOrigin ++ href) ∨
      getAttr (newAttrs (styleLinkEdit u) "link" a ch) "href" = some href := by
    cases hs : hasWord a "rel" "stylesheet" with
    | true =>
      left
      rw [newAttrs_styleLinkEdit_pos u a ch hs hhref, getAttr_setAttr_same, hres]
    | false =>
      right
      rw [newAttrs_styleLinkEdit_neg u a ch hs]
      exact hhref
  -- pass 2: all links
  have hm2 := mem_editList_of_keeps _ (keeps_anyLinkEdit u) _ "link"
    (newAttrs (styleLinkEdit u) "link" a ch) (editList (styleLinkEdit u) ch) hm1
  have ha2href : getAttr (newAttrs (anyLinkEdit u) "link"
      (newAttrs (styleLinkEdit u) "link" a ch) (editList (styleLinkEdit u) ch))
      "href" = some (wikiOrigin ++ href) := by
    rcases ha1href with h1 | h1
    · rw [newAttrs_anyLinkEdit u _ _ _ h1, getAttr_setAttr_same, hresW]
    · rw [newAttrs_anyLinkEdit u _ _ _ h1, getAttr_setAttr_same, hres]
  -- pass 3: head scripts (does not touch links)
  have hm3 := mem_editList_of_keeps _ (keeps_headScriptEdit u) _ "link"
    (newAttrs (anyLinkEdit u) "link" (newAttrs (styleLinkEdit u) "link" a ch)
      (editList (styleLinkEdit u) ch))
    (editList (anyLinkEdit u) (editList (styleLinkEdit u) ch)) hm2
  rw [newAttrs_headScriptEdit_link] at hm3
  refine ⟨newAttrs (anyLinkEdit u) "link" (newAttrs (styleLinkEdit u) "link" a ch)
      (editList (styleLinkEdit u) ch),
    editList (headScriptEdit u) (editList (anyLinkEdit u) (editList (styleLinkEdit u) ch)),
    ?_, ha2href⟩
  rw [processHead, nodesOfNode]
  exact List.mem_cons_of_mem _ hm3

/-- C4 amended witness: the concrete link of the counterexample input. -/
theorem c4_protocol_relative_head_link_amended_witness :
    ∃ a2 ch2, Node.elem "link" a2 ch2 ∈
        nodesOfNode (processHead "https://en.wikipedia.org"
          (Node.elem "head" []
            [Node.elem "link"
              [("rel", "stylesheet"), ("href", "//example.com/x")] []])) ∧
      getAttr a2 "href" = some (wikiOrigin ++ "//example.com/x") :=
  c4_protocol_relative_head_link_amended "https://en.wikipedia.org" [] _
    [("rel", "stylesheet"), ("href", "//example.com/x")] [] "//example.com/x"
    (by simp [nodesOfForest, nodesOfNode]) (by rfl) (by rfl)

theorem isH1Class_heading (n : Node) (h : isH1Class n = true) :
    isHeadingTag n = true := by
  cases n with
  | text s => simp [isH1Class] at h
  | elem t a ch =>
    simp only [isH1Class, Bool.and_eq_true, decide_eq_true_eq] at h
    simp [isHeadingTag, h.1]

theorem isH1Id_heading (n : Node) (h : isH1Id n = true) :
    isHeadingTag n = true := by
  cases n with
  | text s => simp [isH1Id] at h
  | elem t a ch =>
    simp only [isH1Id, Bool.and_eq_true, decide_eq_true_eq] at h
    simp [isHeadingTag, h.1]

theorem isH1_heading (n : Node) (h : isH1 n = true) :
    isHeadingTag n = true := by
  cases n with
  | text s => simp [isH1] at h
  | elem t a ch =>
    simp only [isH1, decide_eq_true_eq] at h
    simp [isHeadingTag, h]

theorem process_title (dl dec : String → Option String) (doc : List Node)
    (u : String) (off : Bool) :
    (processWikipediaHtml dl dec doc u off).title = extractTitle doc := by
  cases off <;> rfl

/-- C6.  An input with no heading element gets the literal fallback title
`Wikipedia Article`; in general the produced title follows the priority
`h1.firstHeading` class, then `h1#firstHeading` id, then first `h1`, then
the fallback literal (lines 117–123). -/
theorem c6_title_priority_and_fallback (dl dec : String → Option String)
    (doc : List Node) (u : String) (off : Bool) :
    ((∀ n ∈ nodesOfForest doc, isHeadingTag n = false) →
      (processWikipediaHtml dl dec doc u off).title = "Wikipedia Article") ∧
    (processWikipediaHtml dl dec doc u off).title =
      (match findForest isH1Class doc with
       | some n => pyStrip (getTextNode n)
       | none =>
         match findForest isH1Id doc with
         | some n => pyStrip (getTextNode n)
         | none =>
           match findForest isH1 doc with
           | some n => pyStrip (getTextNode n)
           | none => "Wikipedia Article") := by
  constructor
  · intro h
    have h1 : ∀ n ∈ nodesOfForest doc, isH1Class n = false := by
      intro n hn
      cases hc : isH1Class n with
      | false => rfl
      | true => rw [← h n hn]; exact (isH1Class_heading n hc).symm ▸ (isH1Class_heading n hc)
    have h2 : ∀ n ∈ nodesOfForest doc, isH1Id n = false := by
      intro n hn
      cases hc : isH1Id n with
      | false => rfl
      | true => rw [← h n hn]; exact (isH1Id_heading n hc).symm ▸ (isH1Id_heading n hc)
    have h3 : ∀ n ∈ nodesOfForest doc, isH1 n = false := by
      intro n hn
      cases hc : isH1 n with
      | false => rfl
      | true => rw [← h n hn]; exact (isH1_heading n hc).symm ▸ (isH1_heading n hc)
    rw [process_title, extractTitle,
      findForest_eq_none _ _ h1, findForest_eq_none _ _ h2, findForest_eq_none _ _ h3]
  · rw [process_title, extractTitle]

/-- C6 witness: a document whose only elements are a paragraph and text. -/
theorem c6_title_priority_and_fallback_witness :
    (processWikipediaHtml (fun _ => none) (fun _ => none)
      [Node.elem "p" [] [Node.text "hello"]] "https://en.wikipedia.org"
      false).title = "Wikipedia Article" :=
  (c6_title_priority_and_fallback (fun _ => none) (fun _ => none)
    [Node.elem "p" [] [Node.text "hello"]] "https://en.wikipedia.org" false).1
    (by decide)

/-- `processHead` cannot introduce a `body` element. -/
theorem processHead_no_body (u : String) :
    ∀ n, isHeadTag n = true → (∀ m ∈ nodesOfNode n, isBodyTag m = false) →
      ∀ m ∈ nodesOfNode (processHead u n), isBodyTag m = false := by
  intro n hp h
  cases n with
  | text s => simp [isHeadTag] at hp
  | elem t a ch =>
    intro m hm
    rw [processHead, nodesOfNode] at hm
    rcases List.mem_cons.mp hm with rfl | hm'
    · exact h (Node.elem t a ch) (by rw [nodesOfNode]; exact List.mem_cons_self _ _)
    · have h0 : ∀ x ∈ nodesOfForest ch, isBodyTag x = false :=
        fun x hx => h x (by rw [nodesOfNode]; exact List.mem_cons_of_mem _ hx)
      have h1 := editList_pred _ (keeps_styleLinkEdit u) isBodyTag
        (fun _ _ _ _ _ => rfl) ch h0
      have h2 := editList_pred _ (keeps_anyLinkEdit u) isBodyTag
        (fun _ _ _ _ _ => rfl) _ h1
      have h3 := editList_pred _ (keeps_headScriptEdit u) isBodyTag
        (fun _ _ _ _ _ => rfl) _ h2
      exact h3 m hm'

/-- C8.  `process_wikipedia_html` is total on parsed documents (it is a
Lean function), and its missing-element fallbacks hold: a document with
no `head` element yields the empty head fragment (lines 126–127), and a
document with no `body` element has the whole parsed tree run through the
body passes and serialized as the body content (lines 164–166). -/
theorem c8_no_head_no_body_graceful (dl dec : String → Option String)
    (doc : List Node) (u : String) (off : Bool) :
    ((∀ n ∈ nodesOfForest doc, isHeadTag n = false) →
      (processWikipediaHtml dl dec doc u off).head_content = "") ∧
    ((∀ n ∈ nodesOfForest doc, isBodyTag n = false) →
      (processWikipediaHtml dl dec doc u off).body_content =
        (if off then
          renderForest (editList (imgEmbedEdit dl)
            (processBodyForest u (mapFirstForest isHeadTag (processHead u) doc).1))
        else
          renderForest (processBodyForest u
            (mapFirstForest isHeadTag (processHead u) doc).1))) := by
  constructor
  · intro h
    have hid := mapFirstForest_id isHeadTag (processHead u) doc h
    have hfind := findForest_eq_none isHeadTag doc h
    cases off with
    | false =>
      simp [processWikipediaHtml, hid, hfind]
    | true =>
      simp [processWikipediaHtml, hid, hfind, embedOfflineResources,
        editList, renderForest]
  · intro h
    have hb1 := mapFirstForest_pred isHeadTag (processHead u) isBodyTag
      (fun _ _ _ _ _ => rfl) (processHead_no_body u) doc h
    have hfindb := findForest_eq_none isBodyTag _ hb1
    cases off with
    | false => simp [processWikipediaHtml, hfindb]
    | true =>
      simp [processWikipediaHtml, hfindb, embedOfflineResources]

/-- C8 witness: a document with neither `head` nor `body`. -/
theorem c8_no_head_no_body_graceful_witness :
    (processWikipediaHtml (fun _ => none) (fun _ => none)
      [Node.elem "p" [] [Node.text "hi"]] "https://en.wikipedia.org"
      false).head_content = "" ∧
    (processWikipediaHtml (fun _ => none) (fun _ => none)
      [Node.elem "p" [] [Node.text "hi"]] "https://en.wikipedia.org"
      false).body_content =
      renderForest (processBodyForest "https://en.wikipedia.org"
        (mapFirstForest isHeadTag (processHead "https://en.wikipedia.org")
          [Node.elem "p" [] [Node.text "hi"]]).1) :=
  ⟨(c8_no_head_no_body_graceful (fun _ => none) (fun _ => none)
      [Node.elem "p" [] [Node.text "hi"]] "https://en.wikipedia.org" false).1
      (by decide),
   (c8_no_head_no_body_graceful (fun _ => none) (fun _ => none)
      [Node.elem "p" [] [Node.text "hi"]] "https://en.wikipedia.org" false).2
      (by decide)⟩

/-- C10.  With the offline flag false no fetching occurs: the rewriter's
output is independent of both network oracles, and `generate_html` is a
pure function — equal records produce identical final documents. -/
theorem c10_offline_false_deterministic (dl₁ dec₁ dl₂ dec₂ : String → Option String)
    (doc : List Node) (u : String) :
    processWikipediaHtml dl₁ dec₁ doc u false =
      processWikipediaHtml dl₂ dec₂ doc u false ∧
    ∀ d₁ d₂ : PageData, d₁ = d₂ → generateHtml d₁ = generateHtml d₂ := by
  constructor
  · rfl
  · intro d₁ d₂ h
    rw [h]

/-- C10 witness: concrete distinct oracles and a concrete record. -/
theorem c10_offline_false_deterministic_witness :
    processWikipediaHtml (fun _ => some "AAAA") (fun _ => some "BBBB")
      [Node.elem "p" [] []] "https://en.wikipedia.org" false =
      processWikipediaHtml (fun _ => none) (fun _ => none)
        [Node.elem "p" [] []] "https://en.wikipedia.org" false ∧
    generateHtml ⟨"T", "", "", false⟩ = generateHtml ⟨"T", "", "", false⟩ :=
  ⟨(c10_offline_false_deterministic (fun _ => some "AAAA") (fun _ => some "BBBB")
      (fun _ => none) (fun _ => none) [Node.elem "p" [] []]
      "https://en.wikipedia.org").1,
   (c10_offline_false_deterministic (fun _ => some "AAAA") (fun _ => some "BBBB")
      (fun _ => none) (fun _ => none) [Node.elem "p" [] []]
      "https://en.wikipedia.org").2 ⟨"T", "", "", false⟩ ⟨"T", "", "", false⟩ rfl⟩

/-- C3 (code defect).  The font regex of line 79 requires the extension
after the final dot to match `[wot]f[f2]?` — at most three characters —
so it can never match the standard font extensions `woff`, `woff2`,
`ttf`, `otf`.  On the spec's example CSS holding the same `.woff2` URL in
all three quoting styles, `re.findall` returns nothing and the embedding
loop returns the CSS unchanged even though every fetch succeeds; the
function's own `endswith('.woff2')`/`.woff`/`.ttf`/`.otf` media-type
branches (lines 92–99) are unreachable for the same reason. -/
theorem c3_font_regex_never_matches_standard_extensions :
    findFontUrls
      "url(\x27fonts/a.woff2\x27) url(\"fonts/a.woff2\") url(fonts/a.woff2)" = [] ∧
    embedFontsCss (fun _ => some "QUJDRA==")
      "url(\x27fonts/a.woff2\x27) url(\"fonts/a.woff2\") url(fonts/a.woff2)" =
      "url(\x27fonts/a.woff2\x27) url(\"fonts/a.woff2\") url(fonts/a.woff2)" ∧
    findFontUrls "url(\x27fonts/a.woff\x27)" = [] ∧
    findFontUrls "url(\x27fonts/a.ttf\x27)" = [] ∧
    findFontUrls "url(\x27fonts/a.otf\x27)" = [] := by
  refine ⟨?_, ?_, ?_, ?_, ?_⟩ <;> rfl

mutual

/-- A stylesheet link whose fetch fails survives the embedder's
stylesheet pass untouched (links are childless, as HTML void elements). -/
theorem cssLink_fail_preserved_node (dl dec : String → Option String) (m : Node)
    (a : List (String × String)) (href : String)
    (hlinks : ∀ a' ch', Node.elem "link" a' ch' ∈ nodesOfNode m → ch' = [])
    (hmem : Node.elem "link" a [] ∈ nodesOfNode m)
    (hhref : getAttr a "href" = some href) (hfail : dl href = none) :
    Node.elem "link" a [] ∈ nodesOfForest (editNode (cssLinkEdit dl dec) m) := by
  cases m with
  | text s => simp [nodesOfNode] at hmem
  | elem t' a' ch' =>
    rw [nodesOfNode] at hmem
    rcases List.mem_cons.mp hmem with heq | hmem'
    · obtain ⟨rfl, rfl, hch⟩ : "link" = t' ∧ a = a' ∧ ([] : List Node) = ch' := by
        injection heq with h1 h2 h3
        exact ⟨h1, h2, h3⟩
      rw [← hch]
      cases hs : hasWord a "rel" "stylesheet" with
      | true =>
        simp [editNode, cssLinkEdit, hs, hhref, hfail, editList,
          nodesOfForest, nodesOfNode]
      | false =>
        simp [editNode, cssLinkEdit, hs, editList, nodesOfForest, nodesOfNode]
    · by_cases ht : t' = "link"
      · subst ht
        have : ch' = [] := hlinks a' ch' (by rw [nodesOfNode]; exact List.mem_cons_self _ _)
        subst this
        simp [nodesOfForest] at hmem'
      · have hact : cssLinkEdit dl dec t' a' ch' = .skip := by
          simp [cssLinkEdit, ht]
        have ih := cssLink_fail_preserved_forest dl dec ch' a href
          (fun a2 ch2 hm => hlinks a2 ch2 (by rw [nodesOfNode]; exact List.mem_cons_of_mem _ hm))
          hmem' hhref hfail
        rw [editNode, hact]
        simp only [nodesOfForest, nodesOfNode, List.append_nil]
        exact List.mem_cons_of_mem _ ih

/-- Forest version of `cssLink_fail_preserved_node`. -/
theorem cssLink_fail_preserved_forest (dl dec : String → Option String)
    (ms : List Node) (a : List (String × String)) (href : String)
    (hlinks : ∀ a' ch', Node.elem "link" a' ch' ∈ nodesOfForest ms → ch' = [])
    (hmem : Node.elem "link" a [] ∈ nodesOfForest ms)
    (hhref : getAttr a "href" = some href) (hfail : dl href = none) :
    Node.elem "link" a [] ∈ nodesOfForest (editList (cssLinkEdit dl dec) ms) := by
  cases ms with
  | nil => simp [nodesOfForest] at hmem
  | cons n ns =>
    rw [nodesOfForest] at hmem
    rw [editList, nodesOfForest_append]
    rcases List.mem_append.mp hmem with h | h
    · exact List.mem_append_left _ (cssLink_fail_preserved_node dl dec n a href
        (fun a2 ch2 hm => hlinks a2 ch2 (by rw [nodesOfForest]; exact List.mem_append_left _ hm))
        h hhref hfail)
    · exact List.mem_append_right _ (cssLink_fail_preserved_forest dl dec ns a href
        (fun a2 ch2 hm => hlinks a2 ch2 (by rw [nodesOfForest]; exact List.mem_append_right _ hm))
        h hhref hfail)

end

/-- C7.  For every stylesheet link whose fetch fails (`download_resource`
returns `None`), the offline embedder's stylesheet pass (lines 36–49)
keeps that `<link rel="stylesheet">` element untouched in its output; the
pass is a total function applied independently to every node, so the
remaining resources are still processed and the run completes. -/
theorem c7_failed_stylesheet_fetch_keeps_link (dl dec : String → Option String)
    (t : List Node) (a : List (String × String)) (href : String)
    (hlinks : ∀ a' ch', Node.elem "link" a' ch' ∈ nodesOfForest t → ch' = [])
    (hmem : Node.elem "link" a [] ∈ nodesOfForest t)
    (hhref : getAttr a "href" = some href) (hfail : dl href = none) :
    Node.elem "link" a [] ∈ nodesOfForest (editList (cssLinkEdit dl dec) t) :=
  cssLink_fail_preserved_forest dl dec t a href hlinks hmem hhref hfail

/-- C7 witness: a failing stylesheet link next to one whose fetch
succeeds. -/
theorem c7_failed_stylesheet_fetch_keeps_link_witness :
    Node.elem "link" [("rel", "stylesheet"), ("href", "https://a/bad.css")] [] ∈
      nodesOfForest (editList
        (cssLinkEdit
          (fun s => if s = "https://a/good.css" then some "Ym9keQ==" else none)
          (fun _ => some "body \x7b color: red \x7d"))
        [Node.elem "link" [("rel", "stylesheet"), ("href", "https://a/good.css")] [],
         Node.elem "link" [("rel", "stylesheet"), ("href", "https://a/bad.css")] []]) :=
  c7_failed_stylesheet_fetch_keeps_link
    (fun s => if s = "https://a/good.css" then some "Ym9keQ==" else none)
    (fun _ => some "body \x7b color: red \x7d")
    [Node.elem "link" [("rel", "stylesheet"), ("href", "https://a/good.css")] [],
     Node.elem "link" [("rel", "stylesheet"), ("href", "https://a/bad.css")] []]
    [("rel", "stylesheet"), ("href", "https://a/bad.css")] "https://a/bad.css"
    (by
      intro a' ch' hm
      simp [nodesOfForest, nodesOfNode] at hm
      rcases hm with ⟨-, h⟩ | ⟨-, h⟩ <;> exact h)
    (by simp [nodesOfForest, nodesOfNode]) (by rfl) (by rfl)

theorem isPrefixL_exists {p l : List Char} (h : isPrefixL p l = true) :
    ∃ v, l = p ++ v := by
  induction p generalizing l with
  | nil => exact ⟨l, rfl⟩
  | cons c cs ih =>
    obtain ⟨rest, rfl, h2⟩ := isPrefixL_head h
    obtain ⟨v, rfl⟩ := ih h2
    exact ⟨v, rfl⟩

theorem containsL_exists {pat s : List Char} (h : containsL pat s = true) :
    ∃ u v, s = u ++ pat ++ v := by
  induction s with
  | nil =>
    have hp : pat = [] := by simpa [containsL] using h
    exact ⟨[], [], by simp [hp]⟩
  | cons c rest ih =>
    rw [containsL, Bool.or_eq_true] at h
    rcases h with h | h
    · obtain ⟨v, hv⟩ := isPrefixL_exists h
      exact ⟨[], v, by simp [hv]⟩
    · obtain ⟨u, v, huv⟩ := ih h
      exact ⟨c :: u, v, by simp [huv]⟩

theorem containsL_sub_left {x y s : List Char} (h : containsL (x ++ y) s = true) :
    containsL x s = true := by
  obtain ⟨u, v, rfl⟩ := containsL_exists h
  exact containsL_of_eq_append x u (y ++ v) _ (by simp [List.append_assoc])

set_option maxRecDepth 1000000 in
/-- C5 counterexample.  For the record produced from an input with no
`<head>` (empty head fragment), the assembled document still carries the
modal markup and interception script (they are appended before
`</body>`), but not the interception stylesheet: the stylesheet is
injected only by replacing `</head>`, which the empty head fragment does
not contain. -/
theorem c5_no_head_missing_stylesheet_counterexample :
    pyContains (generateHtml ⟨"Wikipedia Article", "", "", false⟩)
      boundaryModal = true ∧
    pyContains (generateHtml ⟨"Wikipedia Article", "", "", false⟩)
      boundaryCss = false := by
  constructor
  · show containsL boundaryModal.data
      (generateHtml ⟨"Wikipedia Article", "", "", false⟩).data = true
    apply containsL_of_eq_append boundaryModal.data
      (("<!DOCTYPE html>\n<html lang=\"en\">\n" : String).data ++
        (pyReplace "" "</head>" (boundaryCss ++ "</head>")).data ++
        ("\n<body>\n" : String).data)
      (("</body>\n</html>\n" : String).data)
    simp [generateHtml, String.data_append, List.append_assoc]
  · decide

/-- C5 amended.  For every rewriter output record whose head fragment
contains `</head>` (in particular any input that had a `<head>`), the
assembled document contains all three interception assets: the
stylesheet (injected before `</head>`), and the modal markup and script
(the `boundary_modal` block appended before `</body>`); when the head
fragment is empty, only the modal markup and script are present. -/
theorem c5_interception_assets_amended (d : PageData)
    (hhead : pyContains d.head_content "</head>" = true) :
    pyContains (generateHtml d) boundaryCss = true ∧
    pyContains (generateHtml d) boundaryModal = true := by
  constructor
  · -- the replacement plants `boundary_css ++ "</head>"` in the head fragment
    have h1 : containsL (boundaryCss ++ "</head>").data
        (replaceL ("</head>" : String).data (boundaryCss ++ "</head>").data
          d.head_content.data) = true :=
      containsL_replaceL _ _ _ (by decide) hhead
    have h2 : containsL boundaryCss.data
        (pyReplace d.head_content "</head>" (boundaryCss ++ "</head>")).data = true := by
      rw [String.data_append] at h1
      exact containsL_sub_left h1
    obtain ⟨u, v, huv⟩ := containsL_exists h2
    show containsL boundaryCss.data (generateHtml d).data = true
    apply containsL_of_eq_append boundaryCss.data
      (("<!DOCTYPE html>\n<html lang=\"en\">\n" : String).data ++ u)
      (v ++ ("\n<body>\n" : String).data ++ d.body_content.data ++
        boundaryModal.data ++ ("</body>\n</html>\n" : String).data)
    simp only [generateHtml, String.data_append]
    rw [huv]
    simp [List.append_assoc]
  · show containsL boundaryModal.data (generateHtml d).data = true
    apply containsL_of_eq_append boundaryModal.data
      (("<!DOCTYPE html>\n<html lang=\"en\">\n" : String).data ++
        (pyReplace d.head_content "</head>" (boundaryCss ++ "</head>")).data ++
        ("\n<body>\n" : String).data ++ d.body_content.data)
      (("</body>\n</html>\n" : String).data)
    simp [generateHtml, String.data_append, List.append_assoc]

/-- C5 amended witness: a record whose head fragment is a literal head
element. -/
theorem c5_interception_assets_amended_witness :
    pyContains (generateHtml ⟨"T", "<head></head>", "", false⟩) boundaryCss = true ∧
    pyContains (generateHtml ⟨"T", "<head></head>", "", false⟩) boundaryModal = true :=
  c5_interception_assets_amended ⟨"T", "<head></head>", "", false⟩ (by rfl)

end WikiConv
